import Mathlib

/-!
Verification development for the browser-use-ts repository.

The sources under verification provide the data models of the system: the
controller action parameter classes (`DoneAction`, `NoParamsAction`, ...),
the DOM history models (`HashedDomElement`, `Coordinates`, `CoordinateSet`,
`ViewportInfo`, `DOMHistoryElement` with its `toDict`), the browser state
models (`BrowserStateHistory` with its `toDict`), and the controller result
model (`ActionResultParams` / `ActionResult`).

The service-layer algorithms (Element Locator, Context Window Manager, Step
Engine) are described by the specification but their implementation files are
not among the sources; those are modelled from the spec, each such definition
carrying a doc comment starting with `Modelled from the spec:`.
-/

namespace BrowserUse

/-! ## Fingerprint Index data model (source: HashedDomElement) -/

/-- Embedding of the `HashedDomElement` class: three independent hash digests
identifying a DOM element (branch path, attributes, xpath). -/
structure HashedDomElement where
  branchPathHash : String
  attributesHash : String
  xpathHash : String
deriving DecidableEq, Repr

/-- Modelled from the spec: the Fingerprint Index `equals(a, b)` contract
("all three components equal"); the History Tree Processor service file
implementing it is not among the sources, only the `HashedDomElement` data
class is. -/
def hashedDomElementEquals (a b : HashedDomElement) : Bool :=
  a.branchPathHash == b.branchPathHash &&
  a.attributesHash == b.attributesHash &&
  a.xpathHash == b.xpathHash

/-! ## Element Locator (modelled from the spec, section 4.2) -/

/-- A current candidate element extracted from the live page: its computed
fingerprint and the descriptive data the fallback tiers compare. -/
structure CandidateElement where
  fingerprint : HashedDomElement
  tagName : String
  xpath : String
  attributes : List (String × String)
  center : Option (Int × Int)
deriving DecidableEq, Repr

/-- A historical element reference, as the Element Locator consumes it:
fingerprint plus tag / xpath / attributes / last known page coordinates. -/
structure HistoricalRef where
  fingerprint : HashedDomElement
  tagName : String
  xpath : String
  attributes : List (String × String)
  center : Option (Int × Int)
deriving DecidableEq, Repr

/-- Result of the Element Locator: exact match, degraded match (accepted by a
weaker tier), or `ElementNotFoundError` carrying the historical description. -/
inductive LocatorResult where
  | exactMatch (c : CandidateElement)
  | degradedMatch (c : CandidateElement)
  | elementNotFound (h : HistoricalRef)
deriving DecidableEq, Repr

/-- Squared euclidean distance between two page points. -/
def distSq (a b : Int × Int) : Int :=
  (a.1 - b.1) * (a.1 - b.1) + (a.2 - b.2) * (a.2 - b.2)

/-- Among candidates that carry page coordinates, the one nearest to the
historical coordinates, with its squared distance. -/
def pickNearest (hc : Int × Int) (cs : List CandidateElement) :
    Option (CandidateElement × Int) :=
  cs.foldl
    (fun best c =>
      match c.center with
      | none => best
      | some cc =>
        let d := distSq hc cc
        match best with
        | none => some (c, d)
        | some bd => if d < bd.2 then some (c, d) else some bd)
    none

/-- Modelled from the spec: the Element Locator algorithm of section 4.2 —
the service file implementing it is not among the sources. Tiers in order,
first match wins: (1) exact fingerprint match; (2) xpath-string equality,
degraded; (3) identical tag name and attribute set, disambiguated by nearest
page-coordinate distance when both sides carry coordinates, rejected when the
distance exceeds the pixel threshold; (4) `ElementNotFoundError` carrying the
historical description. -/
def locateElement (threshold : Int) (h : HistoricalRef)
    (cs : List CandidateElement) : LocatorResult :=
  match cs.find? (fun c => hashedDomElementEquals h.fingerprint c.fingerprint) with
  | some c => .exactMatch c
  | none =>
    match cs.find? (fun c => c.xpath == h.xpath) with
    | some c => .degradedMatch c
    | none =>
      let tagAttr := cs.filter
        (fun c => c.tagName == h.tagName && c.attributes == h.attributes)
      match h.center with
      | some hc =>
        match pickNearest hc tagAttr with
        | some cd =>
          if cd.2 ≤ threshold * threshold then .degradedMatch cd.1
          else .elementNotFound h
        | none => .elementNotFound h
      | none =>
        match tagAttr with
        | c :: _ => .degradedMatch c
        | [] => .elementNotFound h

/-! ## Context Window Manager (modelled from the spec, section 4.3) -/

/-- Roles a conversation message can carry; the system message is singular and
pinned first, all other roles live in the append-only non-system region. -/
inductive Role where
  | system
  | stateObservation
  | modelAction
  | actionResult
deriving DecidableEq, Repr

/-- A role-tagged conversation entry with its estimated token cost. -/
structure Message where
  role : Role
  tokens : Nat
deriving DecidableEq, Repr

/-- Total estimated token cost of a message sequence. -/
def sumTokens (ms : List Message) : Nat :=
  (ms.map Message.tokens).foldl (· + ·) 0

/-- The conversation held by the Context Window Manager: the pinned system
message plus the ordered non-system history, oldest first. -/
structure ConversationState where
  systemMessage : Message
  history : List Message
deriving DecidableEq, Repr

/-- What `buildInput` returns: the bounded message sequence and whether the
retained tail still overflows the budget (the unavoidable single-message
case), reported rather than silently dropped. -/
structure BuildResult where
  messages : List Message
  overflow : Bool
deriving DecidableEq, Repr

/-- Modelled from the spec: the FIFO eviction of section 4.3 — drop the oldest
non-system messages from the front until the running token total fits the
budget, but never drop the single most recent message. -/
def dropUntilFit (budget : Nat) : List Message → List Message
  | [] => []
  | [m] => [m]
  | m :: n :: rest =>
    if sumTokens (m :: n :: rest) ≤ budget then m :: n :: rest
    else dropUntilFit budget (n :: rest)

/-- Modelled from the spec: `buildInput(budgetTokens)` of the Context Window
Manager (its implementation file is not among the sources) — the pinned
system message followed by the suffix of most recent non-system messages
fitting the token budget; when even the single most recent message exceeds
the budget it is still included and the overflow is reported. -/
def buildInput (st : ConversationState) (budget : Nat) : BuildResult :=
  let kept := dropUntilFit budget st.history
  { messages := st.systemMessage :: kept
    overflow := budget < sumTokens kept }

/-- `append(message)`: adds to the tail of the sequence, never touching the
pinned system message. -/
def appendMessage (st : ConversationState) (m : Message) : ConversationState :=
  { st with history := st.history ++ [m] }

/-! ## Controller result model (source: ActionResultParams / ActionResult) -/

/-- Embedding of the `ActionResultParams` interface: every field optional,
`none` standing for an `undefined` property. -/
structure ActionResultParams where
  isDone : Option Bool
  success : Option Bool
  extractedContent : Option String
  includeInMemory : Option Bool
  error : Option String
deriving DecidableEq, Repr

/-- The empty params object: every property absent. -/
def emptyActionResultParams : ActionResultParams :=
  ⟨none, none, none, none, none⟩

/-- Embedding of the `ActionResult` class: the error field stays optional on
the instance (`none` means the property was never set). -/
structure ActionResult where
  isDone : Bool
  success : Bool
  extractedContent : String
  includeInMemory : Bool
  error : Option String
deriving DecidableEq, Repr

/-- Embedding of the `ActionResult` constructor: each defined param is copied,
each undefined one falls back to its default (`false` / empty string), and the
error property is set only when present in the params. -/
def ActionResult.make (params : ActionResultParams) : ActionResult where
  isDone := match params.isDone with | some b => b | none => false
  success := match params.success with | some b => b | none => false
  extractedContent :=
    match params.extractedContent with | some s => s | none => ""
  includeInMemory :=
    match params.includeInMemory with | some b => b | none => false
  error := params.error

/-! ## Controller action parameter models (source: controller views) -/

/-- Embedding of the `DoneAction` class: the terminal action payload. -/
structure DoneAction where
  text : String
  success : Bool
deriving DecidableEq, Repr

/-- Schema entry for one declared parameter field. -/
structure FieldSchema where
  type : String
  optional : Bool
deriving DecidableEq, Repr

/-- A declared action schema: the named parameter properties. -/
structure ActionSchema where
  properties : List (String × FieldSchema)
deriving DecidableEq, Repr

/-- Schema declared by `DoneAction.schema()`. -/
def DoneAction.schemaDecl : ActionSchema :=
  { properties :=
      [("text", ⟨"string", false⟩), ("success", ⟨"boolean", false⟩)] }

/-- A JavaScript value, as far as the parameter constructors inspect one:
enough to represent "absolutely anything in the incoming data". -/
inductive JsValue where
  | undef
  | null
  | bool (b : Bool)
  | num (n : Int)
  | str (s : String)
  | obj (fields : List (String × JsValue))
deriving Repr

/-- Embedding of the `NoParamsAction` class: its constructor body ignores the
argument, so the parsed model carries no data at all. -/
structure NoParamsAction where
deriving DecidableEq, Repr

/-- Embedding of the `NoParamsAction` constructor: accepts anything in the
incoming data and discards it, so the final parsed model is empty. -/
def NoParamsAction.make (input : JsValue) : NoParamsAction :=
  match input with
  | _ => {}

/-- Schema declared by `NoParamsAction.schema()`: an empty properties set. -/
def NoParamsAction.schemaDecl : ActionSchema :=
  { properties := [] }

/-! ## Step Engine (modelled from the spec, sections 4.4, 5 and 7) -/

/-- The locally recoverable / step-level error kinds of the error taxonomy. -/
inductive ErrKind where
  | validation
  | elementNotFound
  | model
  | actionExecution
deriving DecidableEq, Repr

/-- Display name of a step-level error kind, as fed back to the model. -/
def errorName : ErrKind → String
  | .validation => "ValidationError"
  | .elementNotFound => "ElementNotFoundError"
  | .model => "ModelError"
  | .actionExecution => "ActionExecutionError"

/-- The reasons a run can terminate in `Failed`. -/
inductive TerminalReason where
  | maxFailuresExceeded
  | stepBudgetExhausted
  | cancelled
deriving DecidableEq, Repr

/-- Run status: still running, terminal `Done` with the overall success flag,
or terminal `Failed` with its reason. -/
inductive RunStatus where
  | running
  | done (success : Bool)
  | failed (reason : TerminalReason)
deriving DecidableEq, Repr

/-- What one observe-decide-act cycle produced, as the Verifying state
consumes it: a cancellation signal caught at the top of Observing, a batch
ending in a successful "done" action, a fully successful batch, or a batch in
which an action failed with the given error kind. -/
inductive StepOutcome where
  | cancelSignal
  | doneAction (d : DoneAction)
  | allSuccess
  | failure (e : ErrKind)
deriving DecidableEq, Repr

/-- Engine configuration: the step budget and the consecutive-failure
maximum. -/
structure EngineConfig where
  stepBudget : Nat
  maxFailures : Nat
deriving DecidableEq, Repr

/-- Modelled from the spec: `RunState` — step count, consecutive-failure
count, the recorded action results, and the terminal flag. -/
structure RunState where
  stepCount : Nat
  consecutiveFailures : Nat
  results : List ActionResult
  status : RunStatus
deriving DecidableEq, Repr

/-- The state the engine enters at run start. -/
def initialRunState : RunState :=
  { stepCount := 0, consecutiveFailures := 0, results := [], status := .running }

/-- The `ActionResult` recorded for a successful "done" action. -/
def doneResult (d : DoneAction) : ActionResult :=
  ActionResult.make ⟨some true, some d.success, some d.text, none, none⟩

/-- The `ActionResult` recorded for a fully successful non-terminal batch. -/
def successResult : ActionResult :=
  ActionResult.make ⟨none, some true, none, none, none⟩

/-- The failed `ActionResult` a recovered step-level error becomes, fed back
to the model as context. -/
def failureResult (e : ErrKind) : ActionResult :=
  ActionResult.make ⟨none, none, none, none, some (errorName e)⟩

/-- Modelled from the spec: one pass of the Step Engine through the Verifying
state (section 4.4), the cancellation check of section 5 included. Terminal
states are absorbing. A cancellation signal, caught at the top of Observing
before the cycle runs, goes straight to `Failed cancelled`. Otherwise the
step counter is incremented; a successful "done" action makes the run `Done`
with that action's success flag; a failed action increments the
consecutive-failure count and terminates with `maxFailuresExceeded` when it
reaches the configured maximum; a fully successful batch resets the count to
0; absent an earlier terminal transition, reaching the step budget terminates
with `stepBudgetExhausted`. -/
def stepTransition (cfg : EngineConfig) (s : RunState) (o : StepOutcome) :
    RunState :=
  match s.status with
  | .running =>
    match o with
    | .cancelSignal => { s with status := .failed .cancelled }
    | .doneAction d =>
      { stepCount := s.stepCount + 1
        consecutiveFailures := s.consecutiveFailures
        results := s.results ++ [doneResult d]
        status := .done d.success }
    | .allSuccess =>
      { stepCount := s.stepCount + 1
        consecutiveFailures := 0
        results := s.results ++ [successResult]
        status :=
          if cfg.stepBudget ≤ s.stepCount + 1 then .failed .stepBudgetExhausted
          else .running }
    | .failure e =>
      { stepCount := s.stepCount + 1
        consecutiveFailures := s.consecutiveFailures + 1
        results := s.results ++ [failureResult e]
        status :=
          if cfg.maxFailures ≤ s.consecutiveFailures + 1 then
            .failed .maxFailuresExceeded
          else if cfg.stepBudget ≤ s.stepCount + 1 then
            .failed .stepBudgetExhausted
          else .running }
  | _ => s

/-- Modelled from the spec: a whole run, the strictly sequential state
machine folding the per-step outcomes; terminal states absorb the rest. -/
def runSteps (cfg : EngineConfig) (s : RunState) : List StepOutcome → RunState
  | [] => s
  | o :: os => runSteps cfg (stepTransition cfg s o) os

/-! ## DOM history models (source: history tree processor views) -/

/-- Embedding of the `Coordinates` class: a point in 2D space. Numbers are
embedded as integers; `toDict` copies them verbatim, so only equality of
numbers matters here. -/
structure Coordinates where
  x : Int
  y : Int
deriving DecidableEq, Repr

/-- Embedding of the `CoordinateSet` class: a rectangle given by its corners,
center and size. -/
structure CoordinateSet where
  topLeft : Coordinates
  topRight : Coordinates
  bottomLeft : Coordinates
  bottomRight : Coordinates
  center : Coordinates
  width : Int
  height : Int
deriving DecidableEq, Repr

/-- Embedding of the `ViewportInfo` class: viewport size and scroll offsets. -/
structure ViewportInfo where
  width : Int
  height : Int
  scrollX : Int
  scrollY : Int
deriving DecidableEq, Repr

/-- Embedding of the `DOMHistoryElement` class. `null` (and the
`null | undefined` of `viewportInfo`) becomes `none`. -/
structure DOMHistoryElement where
  tagName : String
  xpath : String
  highlightIndex : Option Int
  entireParentBranchPath : List String
  attributes : List (String × String)
  shadowRoot : Bool
  cssSelector : Option String
  pageCoordinates : Option CoordinateSet
  viewportCoordinates : Option CoordinateSet
  viewportInfo : Option ViewportInfo
deriving DecidableEq, Repr

/-- The snake_case point object `toDict` emits for one corner or center. -/
structure CoordinatesDict where
  x : Int
  y : Int
deriving DecidableEq, Repr

/-- The snake_case rectangle object `toDict` emits under `page_coordinates`
and `viewport_coordinates`. -/
structure CoordinateSetDict where
  top_left : CoordinatesDict
  top_right : CoordinatesDict
  bottom_left : CoordinatesDict
  bottom_right : CoordinatesDict
  center : CoordinatesDict
  width : Int
  height : Int
deriving DecidableEq, Repr

/-- The snake_case object `toDict` emits under `viewport_info`. -/
structure ViewportInfoDict where
  scroll_x : Int
  scroll_y : Int
  width : Int
  height : Int
deriving DecidableEq, Repr

/-- The plain object `DOMHistoryElement.toDict()` returns, with its snake_case
keys; a `none` field stands for an explicit `null` value. -/
structure DOMHistoryElementDict where
  tag_name : String
  xpath : String
  highlight_index : Option Int
  entire_parent_branch_path : List String
  attributes : List (String × String)
  shadow_root : Bool
  css_selector : Option String
  page_coordinates : Option CoordinateSetDict
  viewport_coordinates : Option CoordinateSetDict
  viewport_info : Option ViewportInfoDict
deriving DecidableEq, Repr

/-- Embedding of `DOMHistoryElement.toDict()`: each field is copied into its
snake_case key; the three optional structured fields are expanded
corner-by-corner when present and become `null` when absent. -/
def DOMHistoryElement.toDict (e : DOMHistoryElement) : DOMHistoryElementDict where
  tag_name := e.tagName
  xpath := e.xpath
  highlight_index := e.highlightIndex
  entire_parent_branch_path := e.entireParentBranchPath
  attributes := e.attributes
  shadow_root := e.shadowRoot
  css_selector := e.cssSelector
  page_coordinates :=
    match e.pageCoordinates with
    | some pc =>
      some
        { top_left := ⟨pc.topLeft.x, pc.topLeft.y⟩
          top_right := ⟨pc.topRight.x, pc.topRight.y⟩
          bottom_left := ⟨pc.bottomLeft.x, pc.bottomLeft.y⟩
          bottom_right := ⟨pc.bottomRight.x, pc.bottomRight.y⟩
          center := ⟨pc.center.x, pc.center.y⟩
          width := pc.width
          height := pc.height }
    | none => none
  viewport_coordinates :=
    match e.viewportCoordinates with
    | some vc =>
      some
        { top_left := ⟨vc.topLeft.x, vc.topLeft.y⟩
          top_right := ⟨vc.topRight.x, vc.topRight.y⟩
          bottom_left := ⟨vc.bottomLeft.x, vc.bottomLeft.y⟩
          bottom_right := ⟨vc.bottomRight.x, vc.bottomRight.y⟩
          center := ⟨vc.center.x, vc.center.y⟩
          width := vc.width
          height := vc.height }
    | none => none
  viewport_info :=
    match e.viewportInfo with
    | some vi =>
      some
        { scroll_x := vi.scrollX
          scroll_y := vi.scrollY
          width := vi.width
          height := vi.height }
    | none => none

/-- Embedding of the `TabInfo` interface. -/
structure TabInfo where
  pageId : Int
  url : String
  title : String
deriving DecidableEq, Repr

/-- Embedding of the `BrowserStateHistory` class. -/
structure BrowserStateHistory where
  url : String
  title : String
  tabs : List TabInfo
  interactedElement : List (Option DOMHistoryElement)
  screenshot : Option String
deriving DecidableEq, Repr

/-- The plain object `BrowserStateHistory.toDict()` returns. -/
structure BrowserStateHistoryDict where
  tabs : List TabInfo
  screenshot : Option String
  interactedElement : List (Option DOMHistoryElementDict)
  url : String
  title : String
deriving DecidableEq, Repr

/-- Embedding of `BrowserStateHistory.toDict()`: tabs, screenshot, url and
title are copied, and each interacted element is converted with its own
`toDict` when present, a `null` entry staying `null`. -/
def BrowserStateHistory.toDict (h : BrowserStateHistory) :
    BrowserStateHistoryDict where
  tabs := h.tabs
  screenshot := h.screenshot
  interactedElement :=
    h.interactedElement.map (fun el =>
      match el with
      | some e => some e.toDict
      | none => none)
  url := h.url
  title := h.title

/-! ## Theorems -/

/-- C5: for every pair of element fingerprints `a` and `b`, `equals(a, b)`
holds exactly when all three components (`branchPathHash`, `attributesHash`,
`xpathHash`) are pairwise equal, and a mismatch in any single component —
hence equality of any proper subset of the components — never identifies the
two as the same element. -/
theorem hashedDomElement_equals_iff_all_components :
    ∀ a b : HashedDomElement,
      (hashedDomElementEquals a b = true ↔
        a.branchPathHash = b.branchPathHash ∧
        a.attributesHash = b.attributesHash ∧
        a.xpathHash = b.xpathHash) ∧
      (a.xpathHash ≠ b.xpathHash → hashedDomElementEquals a b = false) ∧
      (a.attributesHash ≠ b.attributesHash → hashedDomElementEquals a b = false) ∧
      (a.branchPathHash ≠ b.branchPathHash → hashedDomElementEquals a b = false) := by
  intro a b
  have hiff : hashedDomElementEquals a b = true ↔
      a.branchPathHash = b.branchPathHash ∧
      a.attributesHash = b.attributesHash ∧
      a.xpathHash = b.xpathHash := by
    simp [hashedDomElementEquals, and_assoc]
  refine ⟨hiff, fun h => ?_, fun h => ?_, fun h => ?_⟩ <;> rw [Bool.eq_false_iff]
  · exact fun hc => h (hiff.mp hc).2.2
  · exact fun hc => h (hiff.mp hc).2.1
  · exact fun hc => h (hiff.mp hc).1

/-- Witness for C5 at concrete fingerprints: identical triples are equal, a
triple differing only in the xpath hash is not. -/
theorem hashedDomElement_equals_iff_all_components_witness :
    hashedDomElementEquals ⟨"bp1", "at1", "xp1"⟩ ⟨"bp1", "at1", "xp1"⟩ = true ∧
    hashedDomElementEquals ⟨"bp1", "at1", "xp1"⟩ ⟨"bp1", "at1", "xp2"⟩ = false := by
  refine ⟨?_, ?_⟩
  · exact (hashedDomElement_equals_iff_all_components
      ⟨"bp1", "at1", "xp1"⟩ ⟨"bp1", "at1", "xp1"⟩).1.mpr ⟨rfl, rfl, rfl⟩
  · exact (hashedDomElement_equals_iff_all_components
      ⟨"bp1", "at1", "xp1"⟩ ⟨"bp1", "at1", "xp2"⟩).2.1 (by decide)

/-- C1: whenever the current candidate set contains a candidate whose
fingerprint exactly matches the historical element's fingerprint, the Element
Locator returns an exact (non-degraded) match on such a candidate and never
falls through to the weaker tiers. -/
theorem locateElement_exact_fingerprint_priority :
    ∀ (threshold : Int) (h : HistoricalRef) (cs : List CandidateElement),
      (∃ c ∈ cs, hashedDomElementEquals h.fingerprint c.fingerprint = true) →
      ∃ c ∈ cs, hashedDomElementEquals h.fingerprint c.fingerprint = true ∧
        locateElement threshold h cs = .exactMatch c := by
  intro threshold h cs hex
  have hsome :
      (cs.find? (fun c => hashedDomElementEquals h.fingerprint c.fingerprint)).isSome := by
    rw [List.find?_isSome]
    obtain ⟨c, hc, hp⟩ := hex
    exact ⟨c, hc, hp⟩
  obtain ⟨c, hfind⟩ := Option.isSome_iff_exists.mp hsome
  have hp := List.find?_some hfind
  have hm := List.mem_of_find?_eq_some hfind
  refine ⟨c, hm, hp, ?_⟩
  unfold locateElement
  rw [hfind]

/-- Witness for C1: a two-candidate set whose second candidate carries the
historical fingerprint is resolved through the exact tier. -/
theorem locateElement_exact_fingerprint_priority_witness :
    ∃ c ∈ [(⟨⟨"bpA", "atA", "xpA"⟩, "div", "/div[1]", [], none⟩ : CandidateElement),
           ⟨⟨"bpB", "atB", "xpB"⟩, "button", "/button[1]", [], none⟩],
      hashedDomElementEquals
        (HistoricalRef.fingerprint ⟨⟨"bpB", "atB", "xpB"⟩, "button", "/button[1]", [], none⟩)
        c.fingerprint = true ∧
      locateElement 10 ⟨⟨"bpB", "atB", "xpB"⟩, "button", "/button[1]", [], none⟩
        [⟨⟨"bpA", "atA", "xpA"⟩, "div", "/div[1]", [], none⟩,
         ⟨⟨"bpB", "atB", "xpB"⟩, "button", "/button[1]", [], none⟩] = .exactMatch c :=
  locateElement_exact_fingerprint_priority 10
    ⟨⟨"bpB", "atB", "xpB"⟩, "button", "/button[1]", [], none⟩
    [⟨⟨"bpA", "atA", "xpA"⟩, "div", "/div[1]", [], none⟩,
     ⟨⟨"bpB", "atB", "xpB"⟩, "button", "/button[1]", [], none⟩]
    (by decide)

/-- The retained tail is always a suffix of the original history. -/
theorem dropUntilFit_suffix (budget : Nat) :
    ∀ hist : List Message, dropUntilFit budget hist <:+ hist
  | [] => List.suffix_refl _
  | [m] => List.suffix_refl _
  | m :: n :: rest => by
    rw [dropUntilFit]
    by_cases hb : sumTokens (m :: n :: rest) ≤ budget
    · rw [if_pos hb]
    · rw [if_neg hb]
      exact (dropUntilFit_suffix budget (n :: rest)).trans (List.suffix_cons m (n :: rest))

/-- Either the retained tail fits the budget, or it is exactly the single
most recent message, kept although it alone exceeds the budget. -/
theorem dropUntilFit_fits (budget : Nat) :
    ∀ hist : List Message,
      sumTokens (dropUntilFit budget hist) ≤ budget ∨
      ∃ m, dropUntilFit budget hist = [m] ∧ budget < m.tokens
  | [] => Or.inl (by simp [dropUntilFit, sumTokens])
  | [m] => by
    by_cases hm : m.tokens ≤ budget
    · exact Or.inl (by simpa [dropUntilFit, sumTokens] using hm)
    · exact Or.inr ⟨m, rfl, by omega⟩
  | m :: n :: rest => by
    rw [dropUntilFit]
    by_cases hb : sumTokens (m :: n :: rest) ≤ budget
    · rw [if_pos hb]
      exact Or.inl hb
    · rw [if_neg hb]
      exact dropUntilFit_fits budget (n :: rest)

/-- FIFO eviction is greedy from the front: no suffix of the history fitting
the budget is longer than the retained tail. -/
theorem dropUntilFit_maximal (budget : Nat) :
    ∀ (hist s : List Message), s <:+ hist → sumTokens s ≤ budget →
      s.length ≤ (dropUntilFit budget hist).length
  | [], s, hs, _ => by
    simpa [dropUntilFit] using List.IsSuffix.length_le hs
  | [m], s, hs, _ => by
    simpa [dropUntilFit] using List.IsSuffix.length_le hs
  | m :: n :: rest, s, hs, hfit => by
    rw [dropUntilFit]
    by_cases hb : sumTokens (m :: n :: rest) ≤ budget
    · rw [if_pos hb]
      exact List.IsSuffix.length_le hs
    · rw [if_neg hb]
      rcases List.suffix_cons_iff.mp hs with h1 | h2
      · exact absurd (h1 ▸ hfit) hb
      · exact dropUntilFit_maximal budget (n :: rest) s h2 hfit

/-- C2: `buildInput(budgetTokens)` returns the pinned system message followed
by the retained tail, which is a suffix of the non-system history (oldest
messages evicted first); the tail either fits the token budget or is exactly
the single most recent message with the overflow reported; the overflow flag
is accurate; and no fitting suffix is longer than the retained one (as many
of the most recent messages as fit). -/
theorem buildInput_respects_budget :
    ∀ (sys : Message) (hist : List Message) (budget : Nat),
      (buildInput ⟨sys, hist⟩ budget).messages =
        sys :: dropUntilFit budget hist ∧
      dropUntilFit budget hist <:+ hist ∧
      (sumTokens (dropUntilFit budget hist) ≤ budget ∨
        ∃ m, dropUntilFit budget hist = [m] ∧ budget < m.tokens ∧
          (buildInput ⟨sys, hist⟩ budget).overflow = true) ∧
      ((buildInput ⟨sys, hist⟩ budget).overflow =
        decide (budget < sumTokens (dropUntilFit budget hist))) ∧
      (∀ s, s <:+ hist → sumTokens s ≤ budget →
        s.length ≤ (dropUntilFit budget hist).length) := by
  intro sys hist budget
  refine ⟨rfl, dropUntilFit_suffix budget hist, ?_, rfl,
    fun s hs hfit => dropUntilFit_maximal budget hist s hs hfit⟩
  rcases dropUntilFit_fits budget hist with hle | ⟨m, hm, hgt⟩
  · exact Or.inl hle
  · refine Or.inr ⟨m, hm, hgt, ?_⟩
    have : sumTokens (dropUntilFit budget hist) = m.tokens := by
      rw [hm]; simp [sumTokens]
    simp only [buildInput, this]
    exact decide_eq_true hgt

/-- Witness for C2: with budget 7 the oldest message (9 tokens) is evicted,
the two most recent (3 + 4 tokens) are kept behind the system message. -/
theorem buildInput_respects_budget_witness :
    (buildInput ⟨⟨Role.system, 5⟩,
        [⟨Role.stateObservation, 9⟩, ⟨Role.modelAction, 3⟩,
         ⟨Role.actionResult, 4⟩]⟩ 7).messages =
      [⟨Role.system, 5⟩, ⟨Role.modelAction, 3⟩, ⟨Role.actionResult, 4⟩] := by
  have h := (buildInput_respects_budget ⟨Role.system, 5⟩
    [⟨Role.stateObservation, 9⟩, ⟨Role.modelAction, 3⟩,
     ⟨Role.actionResult, 4⟩] 7).1
  rw [h]
  rfl

/-- Terminal states are absorbing for a single transition. -/
theorem stepTransition_of_not_running (cfg : EngineConfig) (s : RunState)
    (o : StepOutcome) (h : s.status ≠ .running) :
    stepTransition cfg s o = s := by
  rcases s with ⟨n, f, rs, st⟩
  cases st with
  | running => exact absurd rfl h
  | done b => rfl
  | failed r => rfl

/-- Terminal states are absorbing for a whole run. -/
theorem runSteps_of_not_running (cfg : EngineConfig) (s : RunState)
    (h : s.status ≠ .running) :
    ∀ os : List StepOutcome, runSteps cfg s os = s
  | [] => rfl
  | o :: os => by
    show runSteps cfg (stepTransition cfg s o) os = s
    rw [stepTransition_of_not_running cfg s o h]
    exact runSteps_of_not_running cfg s h os

/-- One transition never decreases the step counter. -/
theorem stepCount_le_stepTransition (cfg : EngineConfig) (s : RunState)
    (o : StepOutcome) : s.stepCount ≤ (stepTransition cfg s o).stepCount := by
  rcases s with ⟨n, f, rs, st⟩
  cases st <;> cases o <;> simp [stepTransition]

/-- A whole run never decreases the step counter. -/
theorem stepCount_le_runSteps (cfg : EngineConfig) :
    ∀ (os : List StepOutcome) (s : RunState),
      s.stepCount ≤ (runSteps cfg s os).stepCount
  | [], _ => le_refl _
  | o :: os, s =>
    le_trans (stepCount_le_stepTransition cfg s o)
      (stepCount_le_runSteps cfg os (stepTransition cfg s o))

/-- A transition that stays running increments the counter by exactly one and
keeps it strictly under the step budget. -/
theorem stepTransition_running_succ (cfg : EngineConfig) (s : RunState)
    (o : StepOutcome) (hs : s.status = .running)
    (hr : (stepTransition cfg s o).status = .running) :
    (stepTransition cfg s o).stepCount = s.stepCount + 1 ∧
    (stepTransition cfg s o).stepCount < cfg.stepBudget := by
  rcases s with ⟨n, f, rs, st⟩
  simp only at hs
  subst hs
  cases o with
  | cancelSignal => simp [stepTransition] at hr
  | doneAction d => simp [stepTransition] at hr
  | allSuccess =>
    simp only [stepTransition] at hr ⊢
    split at hr
    · exact absurd hr (by simp)
    · exact ⟨trivial, by omega⟩
  | failure e =>
    simp only [stepTransition] at hr ⊢
    split at hr
    · exact absurd hr (by simp)
    · split at hr
      · exact absurd hr (by simp)
      · exact ⟨trivial, by omega⟩

/-- While a run stays in the running state it has made exactly one step per
consumed outcome, and (unless no outcome was consumed) its counter is still
strictly under the step budget. -/
theorem runSteps_running_count (cfg : EngineConfig) :
    ∀ (os : List StepOutcome) (s : RunState), s.status = .running →
      (runSteps cfg s os).status = .running →
      (runSteps cfg s os).stepCount = s.stepCount + os.length ∧
      (os = [] ∨ (runSteps cfg s os).stepCount < cfg.stepBudget)
  | [], s, _, _ => ⟨rfl, Or.inl rfl⟩
  | o :: os, s, hs, hf => by
    have hf' : (runSteps cfg (stepTransition cfg s o) os).status = .running := hf
    by_cases hr : (stepTransition cfg s o).status = .running
    · have ih := runSteps_running_count cfg os (stepTransition cfg s o) hr hf'
      have hstep := stepTransition_running_succ cfg s o hs hr
      constructor
      · show (runSteps cfg (stepTransition cfg s o) os).stepCount =
          s.stepCount + (os.length + 1)
        omega
      · rcases ih.2 with hnil | hlt
        · subst hnil
          refine Or.inr ?_
          show (runSteps cfg (stepTransition cfg s o) []).stepCount < cfg.stepBudget
          exact hstep.2
        · exact Or.inr hlt
    · rw [runSteps_of_not_running cfg (stepTransition cfg s o) hr os] at hf'
      exact absurd hf' hr

/-- C3: the step counter never decreases, over one transition or a whole run;
from the initial state, any run given a step budget of at least one and at
least that many step outcomes has left the running state (the run terminates
within `stepBudget` observe-decide-act cycles); and a step that brings the
counter to the budget without an earlier terminal transition ends the run in
`Failed` with reason `stepBudgetExhausted`. -/
theorem stepEngine_terminates_within_budget :
    ∀ (cfg : EngineConfig) (s : RunState) (o : StepOutcome)
      (os : List StepOutcome),
      s.stepCount ≤ (stepTransition cfg s o).stepCount ∧
      s.stepCount ≤ (runSteps cfg s os).stepCount ∧
      (1 ≤ cfg.stepBudget → cfg.stepBudget ≤ os.length →
        (runSteps cfg initialRunState os).status ≠ .running) ∧
      (s.status = .running → cfg.stepBudget ≤ s.stepCount + 1 →
        (stepTransition cfg s .allSuccess).status = .failed .stepBudgetExhausted ∧
        (∀ e : ErrKind, s.consecutiveFailures + 1 < cfg.maxFailures →
          (stepTransition cfg s (.failure e)).status =
            .failed .stepBudgetExhausted)) := by
  intro cfg s o os
  refine ⟨stepCount_le_stepTransition cfg s o, stepCount_le_runSteps cfg os s,
    ?_, ?_⟩
  · intro h1 hlen hrun
    have hinv := runSteps_running_count cfg os initialRunState rfl hrun
    rcases hinv.2 with hnil | hlt
    · subst hnil
      simp at hlen
      omega
    · have hcount : (runSteps cfg initialRunState os).stepCount = os.length := by
        have := hinv.1
        simpa [initialRunState] using this
      omega
  · intro hs hbudget
    rcases s with ⟨n, f, rs, st⟩
    simp only at hs
    subst hs
    simp only at hbudget
    constructor
    · simp only [stepTransition]
      rw [if_pos hbudget]
    · intro e hmax
      simp only at hmax
      simp only [stepTransition]
      rw [if_neg (by omega), if_pos hbudget]

/-- Witness for C3: with a step budget of 2, two fully successful steps leave
the running state, ending `Failed` with reason `stepBudgetExhausted`. -/
theorem stepEngine_terminates_within_budget_witness :
    (runSteps ⟨2, 3⟩ initialRunState [.allSuccess, .allSuccess]).status =
      .failed .stepBudgetExhausted ∧
    (runSteps ⟨2, 3⟩ initialRunState [.allSuccess, .allSuccess]).status ≠
      .running := by
  refine ⟨by decide, ?_⟩
  exact (stepEngine_terminates_within_budget ⟨2, 3⟩ initialRunState .allSuccess
    [.allSuccess, .allSuccess]).2.2.1 (by decide) (by decide)

/-- C4: from a running state, a fully successful batch resets the
consecutive-failure count to 0, a failed action increments it by one, and the
transition to `Failed` with reason `maxFailuresExceeded` happens exactly when
the incremented count reaches the configured maximum — never on a successful
or done batch, never while the count stays below the maximum; the spec's own
scenario (budget 5, threshold 3, steps fail-fail-succeed-fail-fail) ends in
`stepBudgetExhausted` with the count back at 2, not in
`maxFailuresExceeded`. -/
theorem consecutiveFailures_reset_and_threshold :
    ∀ (cfg : EngineConfig) (s : RunState) (e : ErrKind) (d : DoneAction),
      (s.status = .running →
        (stepTransition cfg s .allSuccess).consecutiveFailures = 0 ∧
        (stepTransition cfg s (.failure e)).consecutiveFailures =
          s.consecutiveFailures + 1 ∧
        ((stepTransition cfg s (.failure e)).status =
            .failed .maxFailuresExceeded ↔
          cfg.maxFailures ≤ s.consecutiveFailures + 1) ∧
        (stepTransition cfg s .allSuccess).status ≠
          .failed .maxFailuresExceeded ∧
        (stepTransition cfg s (.doneAction d)).status ≠
          .failed .maxFailuresExceeded) ∧
      ((runSteps ⟨5, 3⟩ initialRunState
          [.failure .actionExecution, .failure .actionExecution, .allSuccess,
           .failure .actionExecution, .failure .actionExecution]).status =
        .failed .stepBudgetExhausted ∧
       (runSteps ⟨5, 3⟩ initialRunState
          [.failure .actionExecution, .failure .actionExecution, .allSuccess,
           .failure .actionExecution, .failure .actionExecution]).consecutiveFailures = 2) := by
  intro cfg s e d
  refine ⟨?_, by decide, by decide⟩
  intro hs
  rcases s with ⟨n, f, rs, st⟩
  simp only at hs
  subst hs
  refine ⟨rfl, rfl, ?_, ?_, ?_⟩
  · simp only [stepTransition]
    by_cases hmax : cfg.maxFailures ≤ f + 1
    · rw [if_pos hmax]
      simpa using hmax
    · rw [if_neg hmax]
      constructor
      · intro hc
        split at hc <;> simp_all
      · intro hc
        exact absurd hc hmax
  · simp only [stepTransition]
    split <;> simp
  · simp [stepTransition]

/-- Witness for C4: applying the policy at a concrete running state with one
prior consecutive failure under threshold 3. -/
theorem consecutiveFailures_reset_and_threshold_witness :
    (stepTransition ⟨5, 3⟩ ⟨1, 1, [], .running⟩ .allSuccess).consecutiveFailures = 0 ∧
    (stepTransition ⟨5, 3⟩ ⟨1, 1, [], .running⟩
      (.failure .validation)).consecutiveFailures = 1 + 1 := by
  have h := (consecutiveFailures_reset_and_threshold ⟨5, 3⟩
    ⟨1, 1, [], .running⟩ .validation ⟨"done", true⟩).1 rfl
  exact ⟨h.1, h.2.1⟩

/-- C6: from any running state, a batch that includes a successful "done"
action makes the run terminal `Done` at that very step, the overall success
flag taken from the action, the step counter incremented once, and — terminal
states being absorbing — no further observe-decide-act cycle affects the
state, however many outcomes and however much step budget remain. -/
theorem doneAction_ends_run :
    ∀ (cfg : EngineConfig) (s : RunState) (d : DoneAction)
      (os : List StepOutcome),
      s.status = .running →
      runSteps cfg s (.doneAction d :: os) =
        { stepCount := s.stepCount + 1
          consecutiveFailures := s.consecutiveFailures
          results := s.results ++ [doneResult d]
          status := .done d.success } := by
  intro cfg s d os hs
  have h1 : stepTransition cfg s (.doneAction d) =
      { stepCount := s.stepCount + 1
        consecutiveFailures := s.consecutiveFailures
        results := s.results ++ [doneResult d]
        status := .done d.success } := by
    rcases s with ⟨n, f, rs, st⟩
    simp only at hs
    subst hs
    rfl
  show runSteps cfg (stepTransition cfg s (.doneAction d)) os = _
  rw [h1]
  exact runSteps_of_not_running cfg _ (by simp) os

/-- Witness for C6: the spec scenario — a "done" action with success on step
2 of a 10-step budget ends the run `Done` at step 2, remaining budget
unused. -/
theorem doneAction_ends_run_witness :
    (runSteps ⟨10, 3⟩ initialRunState
      [.allSuccess, .doneAction ⟨"task complete", true⟩]).status = .done true ∧
    (runSteps ⟨10, 3⟩ initialRunState
      [.allSuccess, .doneAction ⟨"task complete", true⟩]).stepCount = 2 := by
  have h := doneAction_ends_run ⟨10, 3⟩
    (stepTransition ⟨10, 3⟩ initialRunState .allSuccess)
    ⟨"task complete", true⟩ [] (by decide)
  constructor
  · show (runSteps ⟨10, 3⟩ (stepTransition ⟨10, 3⟩ initialRunState .allSuccess)
      [.doneAction ⟨"task complete", true⟩]).status = .done true
    rw [h]
  · show (runSteps ⟨10, 3⟩ (stepTransition ⟨10, 3⟩ initialRunState .allSuccess)
      [.doneAction ⟨"task complete", true⟩]).stepCount = 2
    rw [h]
    decide

/-- C7: a `ValidationError` or `ElementNotFoundError` below the failure and
budget thresholds is recovered locally — the run stays running and the error
becomes a failed `ActionResult` (success `false`, error message set) recorded
as context for the model's next decision; and whatever outcomes a run
consumes, a `Failed` outcome can only carry `maxFailuresExceeded`,
`stepBudgetExhausted` or `cancelled` — the three reasons terminal to a
run. -/
theorem recoverable_errors_never_terminate :
    ∀ (cfg : EngineConfig) (s : RunState) (e : ErrKind)
      (os : List StepOutcome) (r : TerminalReason),
      ((e = .validation ∨ e = .elementNotFound) → s.status = .running →
        s.consecutiveFailures + 1 < cfg.maxFailures →
        s.stepCount + 1 < cfg.stepBudget →
        (stepTransition cfg s (.failure e)).status = .running ∧
        (stepTransition cfg s (.failure e)).results =
          s.results ++ [failureResult e] ∧
        (failureResult e).success = false ∧
        (failureResult e).error = some (errorName e)) ∧
      ((runSteps cfg s os).status = .failed r →
        r = .maxFailuresExceeded ∨ r = .stepBudgetExhausted ∨
          r = .cancelled) := by
  intro cfg s e os r
  constructor
  · intro _ hs hmax hbudget
    rcases s with ⟨n, f, rs, st⟩
    simp only at hs
    subst hs
    simp only at hmax hbudget
    refine ⟨?_, rfl, rfl, rfl⟩
    simp only [stepTransition]
    rw [if_neg (by omega), if_neg (by omega)]
  · intro _
    cases r with
    | maxFailuresExceeded => exact Or.inl rfl
    | stepBudgetExhausted => exact Or.inr (Or.inl rfl)
    | cancelled => exact Or.inr (Or.inr rfl)

/-- Witness for C7: a `ValidationError` on the first of ten budgeted steps
with threshold 3 leaves the run running, with the failed result recorded. -/
theorem recoverable_errors_never_terminate_witness :
    (stepTransition ⟨10, 3⟩ initialRunState (.failure .validation)).status =
      .running ∧
    (stepTransition ⟨10, 3⟩ initialRunState (.failure .validation)).results =
      initialRunState.results ++ [failureResult .validation] ∧
    (failureResult .validation).success = false ∧
    (failureResult .validation).error = some (errorName .validation) :=
  (recoverable_errors_never_terminate ⟨10, 3⟩ initialRunState .validation []
    .cancelled).1 (Or.inl rfl) rfl (by decide) (by decide)

/-- C8: `toDict` is a pure function of the recorded element — the element is
read and copied, never changed — the snake_case keys carry the fields
verbatim, the `page_coordinates`, `viewport_coordinates` and `viewport_info`
keys are null exactly when the corresponding fields are null, with every
coordinate and size number copied unchanged when present; and
`BrowserStateHistory.toDict` keeps the element list's length and maps each
null `interactedElement` entry to null. -/
theorem toDict_preserves_fields_and_nulls :
    ∀ (e : DOMHistoryElement) (h : BrowserStateHistory),
      (e.toDict.tag_name = e.tagName ∧ e.toDict.xpath = e.xpath ∧
        e.toDict.highlight_index = e.highlightIndex ∧
        e.toDict.entire_parent_branch_path = e.entireParentBranchPath ∧
        e.toDict.attributes = e.attributes ∧
        e.toDict.shadow_root = e.shadowRoot ∧
        e.toDict.css_selector = e.cssSelector) ∧
      (e.toDict.page_coordinates = none ↔ e.pageCoordinates = none) ∧
      (e.toDict.viewport_coordinates = none ↔ e.viewportCoordinates = none) ∧
      (e.toDict.viewport_info = none ↔ e.viewportInfo = none) ∧
      (∀ pc, e.pageCoordinates = some pc →
        e.toDict.page_coordinates =
          some ⟨⟨pc.topLeft.x, pc.topLeft.y⟩, ⟨pc.topRight.x, pc.topRight.y⟩,
            ⟨pc.bottomLeft.x, pc.bottomLeft.y⟩,
            ⟨pc.bottomRight.x, pc.bottomRight.y⟩,
            ⟨pc.center.x, pc.center.y⟩, pc.width, pc.height⟩) ∧
      (∀ vc, e.viewportCoordinates = some vc →
        e.toDict.viewport_coordinates =
          some ⟨⟨vc.topLeft.x, vc.topLeft.y⟩, ⟨vc.topRight.x, vc.topRight.y⟩,
            ⟨vc.bottomLeft.x, vc.bottomLeft.y⟩,
            ⟨vc.bottomRight.x, vc.bottomRight.y⟩,
            ⟨vc.center.x, vc.center.y⟩, vc.width, vc.height⟩) ∧
      (∀ vi, e.viewportInfo = some vi →
        e.toDict.viewport_info =
          some ⟨vi.scrollX, vi.scrollY, vi.width, vi.height⟩) ∧
      (∀ i, h.interactedElement.get? i = some none →
        h.toDict.interactedElement.get? i = some none) ∧
      h.toDict.interactedElement.length = h.interactedElement.length := by
  intro e h
  obtain ⟨tn, xp, hi, pb, attrs, sr, css, pc, vc, vi⟩ := e
  refine ⟨⟨rfl, rfl, rfl, rfl, rfl, rfl, rfl⟩, ?_, ?_, ?_, ?_, ?_, ?_, ?_, ?_⟩
  · cases pc <;> simp [DOMHistoryElement.toDict]
  · cases vc <;> simp [DOMHistoryElement.toDict]
  · cases vi <;> simp [DOMHistoryElement.toDict]
  · intro pc' hpc
    cases pc <;> simp_all [DOMHistoryElement.toDict]
  · intro vc' hvc
    cases vc <;> simp_all [DOMHistoryElement.toDict]
  · intro vi' hvi
    cases vi <;> simp_all [DOMHistoryElement.toDict]
  · intro i hi
    simp only [BrowserStateHistory.toDict, List.get?_map, hi]
    rfl
  · simp [BrowserStateHistory.toDict]

/-- Witness for C8: a concrete element with null page coordinates and a
viewport snapshot, and a history entry whose single interacted element is
null. -/
theorem toDict_preserves_fields_and_nulls_witness :
    (DOMHistoryElement.toDict
      ⟨"button", "/html/body/button[1]", some 3, ["html", "body"],
        [("id", "submit")], false, none, none, none,
        some ⟨800, 600, 0, 40⟩⟩).page_coordinates = none ∧
    (DOMHistoryElement.toDict
      ⟨"button", "/html/body/button[1]", some 3, ["html", "body"],
        [("id", "submit")], false, none, none, none,
        some ⟨800, 600, 0, 40⟩⟩).viewport_info = some ⟨0, 40, 800, 600⟩ ∧
    (BrowserStateHistory.toDict
      ⟨"https://a.example", "A", [], [none], none⟩).interactedElement.get? 0 =
      some none := by
  have h := toDict_preserves_fields_and_nulls
    ⟨"button", "/html/body/button[1]", some 3, ["html", "body"],
      [("id", "submit")], false, none, none, none, some ⟨800, 600, 0, 40⟩⟩
    ⟨"https://a.example", "A", [], [none], none⟩
  exact ⟨h.2.1.mpr rfl, h.2.2.2.2.2.2.1 ⟨800, 600, 0, 40⟩ rfl,
    h.2.2.2.2.2.2.2.1 0 rfl⟩

/-- C9: the `ActionResult` constructor copies each defined param and falls
back to `false` / the empty string for each absent one, and the constructed
result has an error property exactly when the params carry one — a
successful result built from error-free params (the empty object included)
has no error field at all. -/
theorem actionResult_constructor_defaults :
    ∀ p : ActionResultParams,
      (p.isDone = none → (ActionResult.make p).isDone = false) ∧
      (∀ b, p.isDone = some b → (ActionResult.make p).isDone = b) ∧
      (p.success = none → (ActionResult.make p).success = false) ∧
      (∀ b, p.success = some b → (ActionResult.make p).success = b) ∧
      (p.extractedContent = none →
        (ActionResult.make p).extractedContent = "") ∧
      (∀ s, p.extractedContent = some s →
        (ActionResult.make p).extractedContent = s) ∧
      (p.includeInMemory = none →
        (ActionResult.make p).includeInMemory = false) ∧
      (∀ b, p.includeInMemory = some b →
        (ActionResult.make p).includeInMemory = b) ∧
      ((ActionResult.make p).error.isSome ↔ p.error.isSome) ∧
      (∀ s, p.error = some s → (ActionResult.make p).error = some s) ∧
      (ActionResult.make emptyActionResultParams).error = none := by
  intro p
  obtain ⟨d, su, ec, im, er⟩ := p
  refine ⟨fun h => ?_, fun b h => ?_, fun h => ?_, fun b h => ?_, fun h => ?_,
    fun s h => ?_, fun h => ?_, fun b h => ?_, Iff.rfl, fun s h => ?_, rfl⟩ <;>
    (subst h; rfl)

/-- Witness for C9: params with `isDone` and `extractedContent` defined and
everything else absent. -/
theorem actionResult_constructor_defaults_witness :
    (ActionResult.make ⟨some true, none, some "hello", none, none⟩).isDone =
      true ∧
    (ActionResult.make ⟨some true, none, some "hello", none, none⟩).success =
      false ∧
    (ActionResult.make
      ⟨some true, none, some "hello", none, none⟩).extractedContent =
      "hello" ∧
    (ActionResult.make emptyActionResultParams).error = none := by
  have h := actionResult_constructor_defaults
    ⟨some true, none, some "hello", none, none⟩
  exact ⟨h.2.1 true rfl, h.2.2.1 rfl, h.2.2.2.2.2.1 "hello" rfl,
    h.2.2.2.2.2.2.2.2.2.2⟩

/-- C10: the `NoParamsAction` constructor discards whatever incoming data it
receives — every constructed instance equals the one constructed from
nothing, all instances of the parsed model are identical (it has no parameter
fields), and the declared schema has an empty properties set. -/
theorem noParamsAction_discards_input :
    (∀ v : JsValue, NoParamsAction.make v = NoParamsAction.make JsValue.undef) ∧
    (∀ a b : NoParamsAction, a = b) ∧
    NoParamsAction.schemaDecl.properties = [] :=
  ⟨fun _ => rfl, fun _ _ => rfl, rfl⟩

/-- Witness for C10: a populated object and a string are both discarded. -/
theorem noParamsAction_discards_input_witness :
    NoParamsAction.make (JsValue.obj [("index", JsValue.num 5)]) =
      NoParamsAction.make JsValue.undef ∧
    NoParamsAction.make (JsValue.str "ignored") =
      NoParamsAction.make JsValue.undef :=
  ⟨noParamsAction_discards_input.1 (JsValue.obj [("index", JsValue.num 5)]),
   noParamsAction_discards_input.1 (JsValue.str "ignored")⟩

end BrowserUse
